import Mathlib

/-
Shallow embedding of the two CGo wrapper variants of the gollum Kafka
producer bridge:

  * `librdkafka` namespace — src/contrib/native/librdkafka/wrapper.c
    (the 2015-2016 variant: counter-tracked buffers, batch builder and
    batch result scanner);
  * `kafka` namespace — src/contrib/native/kafka/librdkafka/wrapper.c
    (the 2015-2018 variant: Alloc/Free tracked allocation, guarded
    CreateBuffer, no batch API).

Machine state that matters to the claims is made explicit:

  * the process-wide allocation counter `gAllocCounter` (an int64) is
    threaded through each operation as an `Int` argument and result;
  * raw pointers are `Option Nat` (`none` = NULL);
  * `malloc` is an oracle `Nat → Option Nat` where a claim depends on its
    success or failure; where the C code dereferences the result
    unconditionally (so failure is undefined behavior) the allocation is
    modelled as succeeding;
  * the delivery callback bridge is embedded as the trace of calls it
    performs (`BridgeCall`), in order;
  * the batch descriptor array is embedded as memory, a total function
    `Int → rd_kafka_message_t`, because the C code indexes it without any
    bounds check: a store at an out-of-range index is a real write to
    that address, which the memory model represents directly.
-/

/-- buffer_t from wrapper.h (both variants): `void* data; int len;`.
`data = none` models a NULL data pointer. -/
structure buffer_t where
  data : Option Nat
  len : Nat
deriving DecidableEq, Repr

/-- The fields of librdkafka's `rd_kafka_message_t` that the wrapper code
reads or writes: err, key_len, len, key, payload and the _private slot
holding the attached Opaque Handle (`none` = no handle attached). -/
structure rd_kafka_message_t where
  err : Int
  key_len : Nat
  len : Nat
  key : Option Nat
  payload : Option Nat
  _private : Option buffer_t
deriving DecidableEq, Repr

/-- One call performed by a delivery callback bridge, in order of
execution: `deliver rk err buf` is the call `goDeliveryHandler(rk, err,
buf)` into Go, `destroy buf` is the call `DestroyBuffer(buf)`. -/
inductive BridgeCall where
  | deliver (rk : Nat) (err : Int) (buf : Option buffer_t)
  | destroy (buf : Option buffer_t)
deriving DecidableEq, Repr

namespace kafka

/-- Alloc from src/contrib/native/kafka/librdkafka/wrapper.c: increments
`gAllocCounter` first, then calls malloc and returns its result — the
counter is incremented whether or not malloc succeeds. -/
def Alloc (malloc : Nat → Option Nat) (ctr : Int) (size : Nat) : Int × Option Nat :=
  (ctr + 1, malloc size)

/-- Free from the kafka variant: a NULL pointer is ignored; a non-NULL
pointer is freed and the counter decremented. -/
def Free (ctr : Int) (pData : Option Nat) : Int :=
  match pData with
  | none => ctr
  | some _ => ctr - 1

/-- CreateBuffer from the kafka variant: returns NULL (allocating
nothing, counter untouched) when `pData` is NULL or `len` is zero;
otherwise obtains the struct via `Alloc` (counter + 1) and fills it.
The code dereferences the Alloc result unconditionally, so the struct
allocation is modelled as succeeding; 16 stands for sizeof(buffer_t). -/
def CreateBuffer (ctr : Int) (len : Nat) (pData : Option Nat) : Int × Option buffer_t :=
  match pData with
  | none => (ctr, none)
  | some d =>
      if len = 0 then (ctr, none)
      else ((Alloc (fun _ => some 0) ctr 16).1, some ⟨some d, len⟩)

/-- DestroyBuffer from the kafka variant: a NULL handle is ignored;
otherwise `Free(pBuffer->data)` then `Free(pBuffer)` — the buffer
pointer itself is non-NULL here, so the second Free always decrements. -/
def DestroyBuffer (ctr : Int) (pBuffer : Option buffer_t) : Int :=
  match pBuffer with
  | none => ctr
  | some b => Free (Free ctr b.data) (some 0)

/-- deliveryWrapper from the kafka variant, as the trace of calls it
makes: it forwards every outcome (success and failure alike) to
`goDeliveryHandler` and then calls `DestroyBuffer` on the handle. -/
def deliveryWrapper (rk : Nat) (err : Int) (priv : Option buffer_t) : List BridgeCall :=
  [.deliver rk err priv, .destroy priv]

end kafka

namespace librdkafka

/-- CreateBuffer from src/contrib/native/librdkafka/wrapper.c: increments
`gAllocCounter` unconditionally, then mallocs the struct and fills it
with the given data pointer and length (no NULL / zero-length guard;
the malloc result is dereferenced unconditionally, so it is modelled as
succeeding). -/
def CreateBuffer (ctr : Int) (len : Nat) (pData : Option Nat) : Int × buffer_t :=
  (ctr + 1, ⟨pData, len⟩)

/-- DestroyBuffer from the librdkafka variant: a NULL handle is ignored;
a non-NULL handle is freed and the counter decremented (the data
pointer is not freed in this variant). -/
def DestroyBuffer (ctr : Int) (pBuffer : Option buffer_t) : Int :=
  match pBuffer with
  | none => ctr
  | some _ => ctr - 1

/-- deliveryWrapper from the librdkafka variant, as the trace of calls it
makes: it forwards only failure outcomes (`err ≠ 0`, that is, err is not
RD_KAFKA_RESP_ERR_NO_ERROR) to `goDeliveryHandler`, and then calls
`DestroyBuffer` on the handle unconditionally. -/
def deliveryWrapper (rk : Nat) (err : Int) (priv : Option buffer_t) : List BridgeCall :=
  (if err ≠ 0 then [.deliver rk err priv] else []) ++ [.destroy priv]

end librdkafka

/-- Claim C3: in both wrapper variants, for every delivery outcome (error
code zero or non-zero), deliveryWrapper ends by calling DestroyBuffer on
the message's handle: the destroy call is the last call of the trace, on
the success path and on the failure path alike. -/
theorem deliveryWrapper_always_destroys (rk : Nat) (err : Int) (priv : Option buffer_t) :
    (librdkafka.deliveryWrapper rk err priv).getLast? = some (.destroy priv) ∧
    (kafka.deliveryWrapper rk err priv).getLast? = some (.destroy priv) := by
  refine ⟨?_, rfl⟩
  unfold librdkafka.deliveryWrapper
  by_cases h : err = 0 <;> simp [h]

/-- Claim C9: restricted to failure outcomes (non-zero error code) the two
delivery-bridge variants perform identical traces — one goDeliveryHandler
call with the same (client, error code, handle) arguments followed by one
DestroyBuffer on the handle — while on success outcomes the kafka variant
notifies the handler and the librdkafka variant only destroys. -/
theorem deliveryWrapper_variants_agree_on_failure (rk : Nat) (err : Int) (priv : Option buffer_t) :
    (err ≠ 0 →
      librdkafka.deliveryWrapper rk err priv = kafka.deliveryWrapper rk err priv ∧
      kafka.deliveryWrapper rk err priv = [.deliver rk err priv, .destroy priv]) ∧
    librdkafka.deliveryWrapper rk 0 priv = [.destroy priv] ∧
    kafka.deliveryWrapper rk 0 priv = [.deliver rk 0 priv, .destroy priv] := by
  refine ⟨fun h => ⟨?_, rfl⟩, ?_, rfl⟩
  · simp [librdkafka.deliveryWrapper, kafka.deliveryWrapper, h]
  · simp [librdkafka.deliveryWrapper]

/-- Claim C10: kafka-variant Alloc increments the allocation counter
before and regardless of the underlying malloc's outcome, Free of a NULL
pointer leaves the counter unchanged, and therefore an Alloc whose malloc
fails (returns NULL) leaves the counter permanently incremented: freeing
the NULL it returned restores nothing. -/
theorem alloc_counter_overcount (malloc : Nat → Option Nat) (ctr : Int) (size : Nat) :
    (kafka.Alloc malloc ctr size).1 = ctr + 1 ∧
    kafka.Free ctr none = ctr ∧
    (malloc size = none →
      kafka.Free (kafka.Alloc malloc ctr size).1 (kafka.Alloc malloc ctr size).2 = ctr + 1) := by
  refine ⟨rfl, rfl, fun h => ?_⟩
  simp [kafka.Alloc, kafka.Free, h]

/-- Claim C2, counterexample: in the kafka variant the round trip
CreateBuffer-then-DestroyBuffer does not restore the counter: starting
from 0, a successful CreateBuffer (non-NULL data, non-zero length) raises
the counter to 1, and DestroyBuffer then lowers it to -1 (it decrements
twice: once for the attached data pointer, once for the struct), not to 0
as the claim states for both variants. -/
theorem kafka_roundtrip_counter_cex :
    (kafka.CreateBuffer 0 5 (some 1)).1 = 1 ∧
    kafka.DestroyBuffer (kafka.CreateBuffer 0 5 (some 1)).1 (kafka.CreateBuffer 0 5 (some 1)).2 = -1 ∧
    (-1 : Int) ≠ 0 := by
  refine ⟨rfl, rfl, by decide⟩

/-- Claim C2 as amended: DestroyBuffer of NULL leaves the counter
unchanged in both variants; the librdkafka round trip
CreateBuffer-then-DestroyBuffer is counter-neutral; in the kafka variant
DestroyBuffer after a successful CreateBuffer decrements by 2 (data
pointer + struct), so that round trip alone nets -1, and the counter
returns exactly to its prior value once the separate Alloc that produced
the data pointer is included in the cycle. -/
theorem buffer_roundtrip_counter (ctr : Int) (len dlen d : Nat) (malloc : Nat → Option Nat)
    (hlen : len ≠ 0) :
    librdkafka.DestroyBuffer ctr none = ctr ∧
    kafka.DestroyBuffer ctr none = ctr ∧
    (∀ pd : Option Nat,
      librdkafka.DestroyBuffer (librdkafka.CreateBuffer ctr len pd).1
        (some (librdkafka.CreateBuffer ctr len pd).2) = ctr) ∧
    kafka.DestroyBuffer (kafka.CreateBuffer ctr len (some d)).1
      (kafka.CreateBuffer ctr len (some d)).2 = ctr - 1 ∧
    (∀ p, (kafka.Alloc malloc ctr dlen).2 = some p →
      kafka.DestroyBuffer
        (kafka.CreateBuffer (kafka.Alloc malloc ctr dlen).1 len (some p)).1
        (kafka.CreateBuffer (kafka.Alloc malloc ctr dlen).1 len (some p)).2 = ctr) := by
  refine ⟨rfl, rfl, fun pd => ?_, ?_, fun p hp => ?_⟩
  · show ctr + 1 - 1 = ctr
    omega
  · simp [kafka.CreateBuffer, kafka.DestroyBuffer, kafka.Free, kafka.Alloc, hlen]
  · simp [kafka.CreateBuffer, kafka.DestroyBuffer, kafka.Free, kafka.Alloc, hlen]
    try omega

/-- Claim C2 witness: the amended statement at ctr = 0, len = 5,
dlen = 3, d = 1 and an always-succeeding malloc. -/
theorem buffer_roundtrip_counter_inst :
    librdkafka.DestroyBuffer 0 none = 0 ∧
    kafka.DestroyBuffer 0 none = 0 ∧
    (∀ pd : Option Nat,
      librdkafka.DestroyBuffer (librdkafka.CreateBuffer 0 5 pd).1
        (some (librdkafka.CreateBuffer 0 5 pd).2) = 0) ∧
    kafka.DestroyBuffer (kafka.CreateBuffer 0 5 (some 1)).1
      (kafka.CreateBuffer 0 5 (some 1)).2 = 0 - 1 ∧
    (∀ p, (kafka.Alloc (fun _ => some 42) 0 3).2 = some p →
      kafka.DestroyBuffer
        (kafka.CreateBuffer (kafka.Alloc (fun _ => some 42) 0 3).1 5 (some p)).1
        (kafka.CreateBuffer (kafka.Alloc (fun _ => some 42) 0 3).1 5 (some p)).2 = 0) :=
  buffer_roundtrip_counter 0 5 3 1 (fun _ => some 42) (by decide)

namespace librdkafka

/-- CreateBatch from the librdkafka variant, at the allocation level: the
code performs no size validation at all — it converts
`size * sizeof(rd_kafka_message_t)` to size_t (arithmetic modulo 2^64)
and passes the result straight to malloc, returning whatever malloc
returns. `msgSize` stands for sizeof(rd_kafka_message_t), `malloc` is
the allocator oracle (`none` = allocation failure, i.e. NULL). -/
def CreateBatch (malloc : Nat → Option Nat) (msgSize : Nat) (size : Int) : Option Nat :=
  malloc ((size * (msgSize : Int) % (2 ^ 64 : Int)).toNat)

/-- DestroyBatch from the librdkafka variant: a single plain
`free(pBatch)` of the descriptor array. The free is untracked (plain
free, not a counted release) and no slot's _private handle is touched,
so the allocation counter is unchanged. -/
def DestroyBatch (ctr : Int) (pBatch : Int → rd_kafka_message_t) : Int :=
  ctr

/-- StoreBatchItem from the librdkafka variant: with no bounds check of
any kind (the function does not even receive the batch size), it writes
key_len, len, key and payload of slot `index` and attaches a freshly
created handle (`CreateBuffer userdataLen pUserdata`, which increments
the allocation counter) to the slot's _private field. The descriptor
array is memory `Int → rd_kafka_message_t`, so an out-of-range index is
an actual write at that out-of-range address. -/
def StoreBatchItem (ctr : Int) (pBatch : Int → rd_kafka_message_t) (index : Int)
    (keyLen : Nat) (pKey : Option Nat) (payloadLen : Nat) (pPayload : Option Nat)
    (userdataLen : Nat) (pUserdata : Option Nat) : Int × (Int → rd_kafka_message_t) :=
  ((CreateBuffer ctr userdataLen pUserdata).1,
    fun i =>
      if i = index then
        { err := (pBatch index).err
          key_len := keyLen
          len := payloadLen
          key := pKey
          payload := pPayload
          _private := some (CreateBuffer ctr userdataLen pUserdata).2 }
      else pBatch i)

/-- k consecutive StoreBatchItem calls on slots 0, 1, ..., k-1 of a
batch, each attaching one handle; returns the final counter and memory. -/
def storeHandles (ctr : Int) (batch : Int → rd_kafka_message_t) :
    Nat → Int × (Int → rd_kafka_message_t)
  | 0 => (ctr, batch)
  | k + 1 =>
      let s := storeHandles ctr batch k
      StoreBatchItem s.1 s.2 k 0 none 0 none 0 none

end librdkafka

/-- Claim C1, counterexample: after StoreBatchItem has attached k = 1
handle to a batch (raising the allocation counter from 0 to 1), a
DestroyBatch call leaves the counter at 1, not at 1 - 1 = 0: DestroyBatch
frees only the descriptor array and releases no slot's handle. -/
theorem destroyBatch_counter_unchanged_cex :
    (librdkafka.storeHandles 0 (fun _ => ⟨0, 0, 0, none, none, none⟩) 1).1 = 1 ∧
    librdkafka.DestroyBatch
      (librdkafka.storeHandles 0 (fun _ => ⟨0, 0, 0, none, none, none⟩) 1).1
      (librdkafka.storeHandles 0 (fun _ => ⟨0, 0, 0, none, none, none⟩) 1).2 = 1 ∧
    (1 : Int) ≠ 1 - 1 := by
  refine ⟨rfl, rfl, by decide⟩

/-- Claim C1 as amended: DestroyBatch frees only the descriptor array and
releases none of the attached Opaque Handles — it leaves the allocation
counter unchanged, so after StoreBatchItem has attached k handles
(counter raised by k) the counter still stands k above its prior value
after DestroyBatch; the handles must be released separately. -/
theorem destroyBatch_frees_array_only (ctr : Int) (batch : Int → rd_kafka_message_t) (k : Nat) :
    (librdkafka.storeHandles ctr batch k).1 = ctr + k ∧
    librdkafka.DestroyBatch (librdkafka.storeHandles ctr batch k).1
      (librdkafka.storeHandles ctr batch k).2 = ctr + k := by
  have h : (librdkafka.storeHandles ctr batch k).1 = ctr + k := by
    induction k with
    | zero => simp [librdkafka.storeHandles]
    | succ n ih =>
        simp only [librdkafka.storeHandles, librdkafka.StoreBatchItem,
          librdkafka.CreateBuffer, ih]
        push_cast
        ring
  exact ⟨h, h⟩

/-- Claim C6, counterexample: CreateBatch(0) does not fail and does
allocate — the code has no size check, so with an allocator that (like
glibc malloc) returns a non-NULL pointer for a zero-byte request,
CreateBatch 0 issues that zero-byte request and returns the non-NULL
result (sizeof(rd_kafka_message_t) instantiated at 72). -/
theorem createBatch_zero_allocates_cex :
    librdkafka.CreateBatch (fun _ => some 1) 72 0 = some 1 := by
  rfl

/-- Claim C6 as amended: CreateBatch performs no size validation: for
every allocator and every sizeof value it forwards
size * sizeof(rd_kafka_message_t), converted to size_t (modulo 2^64),
straight to malloc — CreateBatch(0) requests 0 bytes (succeeding exactly
when the allocator serves a zero-byte request), and CreateBatch(-1)
requests 2^64 - sizeof bytes, failing only if that oversized malloc
itself fails. -/
theorem createBatch_no_size_check (malloc : Nat → Option Nat) (msgSize : Nat)
    (h1 : 0 < msgSize) (h2 : msgSize ≤ 2 ^ 64) :
    librdkafka.CreateBatch malloc msgSize 0 = malloc 0 ∧
    librdkafka.CreateBatch malloc msgSize (-1) = malloc (2 ^ 64 - msgSize) := by
  constructor
  · show malloc ((0 * (msgSize : Int) % (2 ^ 64 : Int)).toNat) = malloc 0
    norm_num
  · show malloc (((-1) * (msgSize : Int) % (2 ^ 64 : Int)).toNat) = malloc (2 ^ 64 - msgSize)
    congr 1
    omega

/-- Claim C6 witness: the amended statement at sizeof = 72 and a
glibc-like allocator that serves zero-byte requests and refuses the
2^64 - 72 byte request. -/
theorem createBatch_no_size_check_inst :
    librdkafka.CreateBatch (fun n => if n = 0 then some 7 else none) 72 0 =
      (fun n => if n = 0 then some 7 else none) 0 ∧
    librdkafka.CreateBatch (fun n => if n = 0 then some 7 else none) 72 (-1) =
      (fun n => if n = 0 then some 7 else none) (2 ^ 64 - 72) :=
  createBatch_no_size_check (fun n => if n = 0 then some 7 else none) 72
    (by decide) (by norm_num)

/-- Claim C8, counterexample: StoreBatchItem performs no bounds check and
raises no error: called with index 5 on a batch whose only valid slot is
0, it stores through the out-of-range index — the memory cell at index 5
changes (its key_len becomes the stored 1) instead of staying untouched,
and the counter is still incremented for the attached handle. -/
theorem storeBatchItem_unchecked_cex :
    ((librdkafka.StoreBatchItem 0 (fun _ => ⟨0, 0, 0, none, none, none⟩) 5
        1 (some 9) 2 (some 8) 3 (some 7)).2 5).key_len = 1 ∧
    ((fun _ : Int => (⟨0, 0, 0, none, none, none⟩ : rd_kafka_message_t)) 5).key_len = 0 ∧
    (librdkafka.StoreBatchItem 0 (fun _ => ⟨0, 0, 0, none, none, none⟩) 5
        1 (some 9) 2 (some 8) 3 (some 7)).1 = 1 := by
  refine ⟨rfl, rfl, rfl⟩

/-- Claim C8 as amended: StoreBatchItem performs no bounds check (it does
not even receive the batch size): for every index, in range or not, it
unconditionally writes the slot fields at that index, attaches a freshly
created handle there, increments the allocation counter by one, and
leaves every other memory cell unchanged; an out-of-range index is an
unchecked out-of-bounds write (the caller-discipline contract of the
spec), not a raised precondition error. -/
theorem storeBatchItem_unconditional_write (ctr : Int) (batch : Int → rd_kafka_message_t)
    (index : Int) (keyLen : Nat) (pKey : Option Nat) (payloadLen : Nat)
    (pPayload : Option Nat) (userdataLen : Nat) (pUserdata : Option Nat) :
    (librdkafka.StoreBatchItem ctr batch index keyLen pKey payloadLen pPayload
        userdataLen pUserdata).1 = ctr + 1 ∧
    (librdkafka.StoreBatchItem ctr batch index keyLen pKey payloadLen pPayload
        userdataLen pUserdata).2 index =
      { err := (batch index).err
        key_len := keyLen
        len := payloadLen
        key := pKey
        payload := pPayload
        _private := some ⟨pUserdata, userdataLen⟩ } ∧
    (∀ j, j ≠ index →
      (librdkafka.StoreBatchItem ctr batch index keyLen pKey payloadLen pPayload
          userdataLen pUserdata).2 j = batch j) := by
  refine ⟨rfl, by simp [librdkafka.StoreBatchItem, librdkafka.CreateBuffer], fun j hj => ?_⟩
  simp [librdkafka.StoreBatchItem, hj]

/-- Wrap an integer to the int32 value range, modelling the wraparound of
`__sync_fetch_and_add` on the int32_t partition cursor. -/
def wrap32 (x : Int) : Int :=
  (x + 2 ^ 31) % 2 ^ 32 - 2 ^ 31

/-- The cursor value read at the start of loop iteration n (0-based) of
the round-robin partitioner, when the cursor held `c` at entry: each
iteration fetches the cursor and stores its int32 successor. -/
def wrapIter (c : Int) : Nat → Int
  | 0 => c
  | n + 1 => wrapIter (wrap32 (c + 1)) n

/-- The do-while loop of msg_partitioner_round_robin (identical in both
wrapper variants): fetch-and-increment the cursor, take the candidate
`p = index % partition_cnt` (C truncated %, `Int.tmod`), count the try,
and repeat while the candidate partition is unavailable and fewer than
`partition_cnt` tries were made. The fuel argument is the number of
tries still permitted; the result is (chosen partition, tries made). -/
def rrLoop (available : Int → Bool) (partition_cnt : Int) (c : Int) : Nat → Int × Nat
  | 0 => (Int.tmod c partition_cnt, 1)
  | 1 => (Int.tmod c partition_cnt, 1)
  | n + 2 =>
      let p := Int.tmod c partition_cnt
      if available p then (p, 1)
      else
        let r := rrLoop available partition_cnt (wrap32 (c + 1)) (n + 1)
        (r.1, r.2 + 1)

/-- msg_partitioner_round_robin from both wrapper variants: run the
do-while loop with up to partition_cnt tries from the current cursor
value and return the chosen partition. `available p` embeds
`rd_kafka_topic_partition_available(rkt, p)`. -/
def msg_partitioner_round_robin (available : Int → Bool) (partition_cnt : Int)
    (cursor : Int) : Int :=
  (rrLoop available partition_cnt cursor partition_cnt.toNat).1

theorem wrap32_eq_self {x : Int} (h1 : -2 ^ 31 ≤ x) (h2 : x < 2 ^ 31) : wrap32 x = x := by
  unfold wrap32
  omega

/-- The loop makes at most as many tries as its fuel permits. -/
theorem rrLoop_tries_le (available : Int → Bool) (P : Int) :
    ∀ (n : Nat) (c : Int), (rrLoop available P c (n + 1)).2 ≤ n + 1 := by
  intro n
  induction n with
  | zero => intro c; simp [rrLoop]
  | succ m ih =>
      intro c
      show (rrLoop available P c (m + 2)).2 ≤ m + 2
      simp only [rrLoop]
      split
      · simp
      · simpa using Nat.add_le_add_right (ih (wrap32 (c + 1))) 1

/-- When every candidate the loop can reach is unavailable, the loop
exhausts its fuel and returns the last candidate it examined. -/
theorem rrLoop_exhausted (available : Int → Bool) (P : Int) :
    ∀ (n : Nat) (c : Int),
      (∀ i : Nat, i ≤ n → available (Int.tmod (wrapIter c i) P) = false) →
      rrLoop available P c (n + 1) = (Int.tmod (wrapIter c n) P, n + 1) := by
  intro n
  induction n with
  | zero => intro c h; simp [rrLoop, wrapIter]
  | succ m ih =>
      intro c h
      have h0 : available (Int.tmod c P) = false := h 0 (Nat.zero_le _)
      show rrLoop available P c (m + 2) = _
      simp only [rrLoop, h0]
      rw [ih (wrap32 (c + 1)) (fun i hi => h (i + 1) (Nat.succ_le_succ hi))]
      simp [wrapIter]

/-- When some reachable candidate is available and the cursor walk does
not cross the int32 boundary, the loop stops on an available candidate. -/
theorem rrLoop_hits_available (available : Int → Bool) (P : Int) (hP : 1 ≤ P) :
    ∀ (n : Nat) (c : Int), 0 ≤ c → c + n + 1 ≤ 2 ^ 31 →
      (∃ i : Nat, i ≤ n ∧ available ((c + i) % P) = true) →
      available (rrLoop available P c (n + 1)).1 = true := by
  intro n
  induction n with
  | zero =>
      intro c hc hbound hex
      obtain ⟨i, hi, hav⟩ := hex
      interval_cases i
      have : Int.tmod c P = c % P := Int.tmod_eq_emod hc (by omega)
      simpa [rrLoop, this] using hav
  | succ m ih =>
      intro c hc hbound hex
      have htm : Int.tmod c P = c % P := Int.tmod_eq_emod hc (by omega)
      show available (rrLoop available P c (m + 2)).1 = true
      simp only [rrLoop]
      split
      · assumption
      · rename_i hnot
        have hfail : available (c % P) = false := by
          rw [← htm]
          simpa using hnot
        have hw : wrap32 (c + 1) = c + 1 := wrap32_eq_self (by omega) (by omega)
        rw [hw]
        apply ih (c + 1) (by omega) (by omega)
        obtain ⟨i, hi, hav⟩ := hex
        match i, hi, hav with
        | 0, _, hav => rw [show ((c + (0 : Nat)) : Int) = c by push_cast; ring] at hav
                       rw [hav] at hfail
                       cases hfail
        | j + 1, hj, hav =>
            exact ⟨j, Nat.le_of_succ_le_succ hj, by
              rw [show ((c + 1 + (j : Nat)) : Int) = c + ((j + 1 : Nat) : Int) by push_cast; ring]
              exact hav⟩

/-- Claim C4, counterexample: with partition count P = 1 and partition 0
marked unavailable (here: no partition available), the round-robin
partitioner exhausts its single attempt and returns the last candidate,
which is 0 — so "never returns 0 when partition 0 is unavailable" fails
as stated for an arbitrary availability state. -/
theorem roundRobin_returns_zero_cex :
    (fun _ : Int => false) 0 = false ∧
    msg_partitioner_round_robin (fun _ : Int => false) 1 0 = 0 := by
  exact ⟨rfl, rfl⟩

/-- Claim C4 as amended: if partition 0 is unavailable, at least one
partition in [0, P) is available, and the int32 cursor does not wrap
during the call (0 ≤ cursor and cursor + P ≤ 2^31), then the round-robin
partitioner never returns 0 — it returns an available partition — and it
does so within at most P attempts. -/
theorem roundRobin_skips_unavailable (available : Int → Bool) (P c : Int)
    (hP : 1 ≤ P) (hc : 0 ≤ c) (hb : c + P ≤ 2 ^ 31)
    (h0 : available 0 = false)
    (hex : ∃ q : Int, 0 ≤ q ∧ q < P ∧ available q = true) :
    msg_partitioner_round_robin available P c ≠ 0 ∧
    available (msg_partitioner_round_robin available P c) = true ∧
    (rrLoop available P c P.toNat).2 ≤ P.toNat := by
  obtain ⟨n, hn⟩ : ∃ n : Nat, P.toNat = n + 1 := ⟨P.toNat - 1, by omega⟩
  obtain ⟨q, hq0, hqP, hqav⟩ := hex
  have hav : available (rrLoop available P c P.toNat).1 = true := by
    rw [hn]
    apply rrLoop_hits_available available P hP n c hc (by omega)
    have hmod0 : 0 ≤ (q - c) % P := Int.emod_nonneg _ (by omega)
    have hmodlt : (q - c) % P < P := Int.emod_lt_of_pos _ (by omega)
    refine ⟨((q - c) % P).toNat, by omega, ?_⟩
    have hcast : ((((q - c) % P).toNat : Nat) : Int) = (q - c) % P :=
      Int.toNat_of_nonneg hmod0
    rw [hcast]
    have : (c + (q - c) % P) % P = q := by
      calc (c + (q - c) % P) % P
          = (c % P + (q - c) % P % P) % P := by rw [Int.add_emod]
        _ = (c % P + (q - c) % P) % P := by rw [Int.emod_emod_of_dvd _ dvd_rfl]
        _ = (c + (q - c)) % P := by rw [← Int.add_emod]
        _ = q % P := by ring_nf
        _ = q := Int.emod_eq_of_lt hq0 hqP
    rw [this, hqav]
  refine ⟨?_, hav, ?_⟩
  · intro hzero
    rw [msg_partitioner_round_robin] at hzero
    rw [hzero, h0] at hav
    cases hav
  · rw [hn]
    exact rrLoop_tries_le available P n c

/-- Claim C4 witness: the amended statement at P = 2, cursor 0, with
partition 0 unavailable and partition 1 available. -/
theorem roundRobin_skips_unavailable_inst :
    msg_partitioner_round_robin (fun p : Int => p == 1) 2 0 ≠ 0 ∧
    (fun p : Int => p == 1) (msg_partitioner_round_robin (fun p : Int => p == 1) 2 0) = true ∧
    (rrLoop (fun p : Int => p == 1) 2 0 (2 : Int).toNat).2 ≤ (2 : Int).toNat :=
  roundRobin_skips_unavailable (fun p : Int => p == 1) 2 0 (by decide) (by decide)
    (by norm_num) (by decide) ⟨1, by decide, by decide, by decide⟩

/-- Claim C5: for every availability predicate and every partition count
P ≥ 1, the round-robin loop terminates after at most P iterations (P
cursor increments), and when every candidate it examines is unavailable
it exhausts exactly P attempts and returns the last candidate examined
(the candidate of iteration P - 1). -/
theorem roundRobin_bounded_tries (available : Int → Bool) (P c : Int) (hP : 1 ≤ P) :
    (rrLoop available P c P.toNat).2 ≤ P.toNat ∧
    ((∀ i : Nat, i < P.toNat → available (Int.tmod (wrapIter c i) P) = false) →
      rrLoop available P c P.toNat = (Int.tmod (wrapIter c (P.toNat - 1)) P, P.toNat)) := by
  obtain ⟨n, hn⟩ : ∃ n : Nat, P.toNat = n + 1 := ⟨P.toNat - 1, by omega⟩
  constructor
  · rw [hn]
    exact rrLoop_tries_le available P n c
  · intro h
    rw [hn, Nat.add_sub_cancel]
    exact rrLoop_exhausted available P n c (fun i hi => h i (by omega))

/-- Claim C5 witness: the statement at P = 2, cursor 0, with no partition
available, where the loop makes exactly 2 tries and returns candidate 1. -/
theorem roundRobin_bounded_tries_inst :
    (rrLoop (fun _ : Int => false) 2 0 (2 : Int).toNat).2 ≤ (2 : Int).toNat ∧
    ((∀ i : Nat, i < (2 : Int).toNat →
        (fun _ : Int => false) (Int.tmod (wrapIter 0 i) 2) = false) →
      rrLoop (fun _ : Int => false) 2 0 (2 : Int).toNat =
        (Int.tmod (wrapIter 0 ((2 : Int).toNat - 1)) 2, (2 : Int).toNat)) :=
  roundRobin_bounded_tries (fun _ : Int => false) 2 0 (by decide)

/-- BatchGetNextError from the librdkafka variant: scan `i` from `offset`
up to (excluding) `length`; return the first `i` whose slot error code is
non-zero (not RD_KAFKA_RESP_ERR_NO_ERROR), or -1 when none is found.
`errOf i` embeds the read `pBatch[i].err`. -/
def BatchGetNextError (errOf : Int → Int) (length offset : Int) : Int :=
  if offset < length then
    if errOf offset ≠ 0 then offset else BatchGetNextError errOf length (offset + 1)
  else -1
termination_by (length - offset).toNat
decreasing_by
  simp_wf
  omega

/-- When the scan reports the sentinel, every slot at or after the offset
holds error code zero. -/
theorem batchGetNextError_none (errOf : Int → Int) (L : Int) :
    ∀ offset : Int, 0 ≤ offset → BatchGetNextError errOf L offset = -1 →
      ∀ i : Int, offset ≤ i → i < L → errOf i = 0 := by
  intro offset
  induction offset using BatchGetNextError.induct errOf L with
  | case1 x hlt hne =>
      intro h0 hres
      rw [BatchGetNextError, if_pos hlt, if_pos hne] at hres
      exfalso
      omega
  | case2 x hlt hne ih =>
      intro h0 hres
      rw [BatchGetNextError, if_pos hlt, if_neg hne] at hres
      intro i hi1 hi2
      rcases eq_or_lt_of_le hi1 with heq | hgt
      · rw [heq] at hne
        simpa using hne
      · exact ih (by omega) hres i (by omega) hi2
  | case3 x hge =>
      intro _ _ i hi1 hi2
      exfalso
      omega

/-- When the scan reports an index, that index is the least slot at or
after the offset whose error code is non-zero. -/
theorem batchGetNextError_found (errOf : Int → Int) (L : Int) :
    ∀ offset : Int, 0 ≤ offset → BatchGetNextError errOf L offset ≠ -1 →
      offset ≤ BatchGetNextError errOf L offset ∧
      BatchGetNextError errOf L offset < L ∧
      errOf (BatchGetNextError errOf L offset) ≠ 0 ∧
      ∀ i : Int, offset ≤ i → i < BatchGetNextError errOf L offset → errOf i = 0 := by
  intro offset
  induction offset using BatchGetNextError.induct errOf L with
  | case1 x hlt hne =>
      intro h0 hres
      rw [BatchGetNextError, if_pos hlt, if_pos hne]
      exact ⟨le_refl x, hlt, hne, fun i hi1 hi2 => by exfalso; omega⟩
  | case2 x hlt hne ih =>
      intro h0 hres
      rw [BatchGetNextError, if_pos hlt, if_neg hne] at hres ⊢
      obtain ⟨h1, h2, h3, h4⟩ := ih (by omega) hres
      refine ⟨by omega, h2, h3, fun i hi1 hi2 => ?_⟩
      rcases eq_or_lt_of_le hi1 with heq | hgt
      · rw [heq] at hne
        simpa using hne
      · exact h4 i (by omega) hi2
  | case3 x hge =>
      intro _ hres
      exfalso
      exact hres (by rw [BatchGetNextError, if_neg hge])

/-- Claim C7: for every batch (its per-slot error codes read through
`errOf`), every length L and every scan offset ≥ 0, BatchGetNextError
returns the least index i with offset ≤ i < L whose error code is
non-zero — when it returns the sentinel -1 no such index exists, and when
it returns an index that index is in range, its slot's code is non-zero,
and every slot between the offset and it holds zero (which is what makes
the restartable offset = lastFound + 1 enumeration visit exactly the
failed slots in ascending order) — and scanning an empty batch (L ≤ 0)
returns the sentinel immediately. -/
theorem batchGetNextError_first_error (errOf : Int → Int) (L offset : Int) (h : 0 ≤ offset) :
    (BatchGetNextError errOf L offset = -1 →
      ∀ i : Int, offset ≤ i → i < L → errOf i = 0) ∧
    (BatchGetNextError errOf L offset ≠ -1 →
      offset ≤ BatchGetNextError errOf L offset ∧
      BatchGetNextError errOf L offset < L ∧
      errOf (BatchGetNextError errOf L offset) ≠ 0 ∧
      (∀ i : Int, offset ≤ i → i < BatchGetNextError errOf L offset → errOf i = 0)) ∧
    (L ≤ 0 → BatchGetNextError errOf L offset = -1) := by
  refine ⟨batchGetNextError_none errOf L offset h,
    batchGetNextError_found errOf L offset h, fun hL => ?_⟩
  rw [BatchGetNextError, if_neg (by omega)]

/-- Claim C7 witness: the statement at the 3-slot batch whose only failed
slot is index 1, scanned from offset 0. -/
theorem batchGetNextError_first_error_inst :
    (BatchGetNextError (fun i => if i = 1 then 7 else 0) 3 0 = -1 →
      ∀ i : Int, 0 ≤ i → i < 3 → (if i = 1 then (7 : Int) else 0) = 0) ∧
    (BatchGetNextError (fun i => if i = 1 then 7 else 0) 3 0 ≠ -1 →
      0 ≤ BatchGetNextError (fun i => if i = 1 then 7 else 0) 3 0 ∧
      BatchGetNextError (fun i => if i = 1 then 7 else 0) 3 0 < 3 ∧
      (if BatchGetNextError (fun i => if i = 1 then 7 else 0) 3 0 = 1 then (7 : Int) else 0) ≠ 0 ∧
      (∀ i : Int, 0 ≤ i → i < BatchGetNextError (fun i => if i = 1 then 7 else 0) 3 0 →
        (if i = 1 then (7 : Int) else 0) = 0)) ∧
    ((3 : Int) ≤ 0 → BatchGetNextError (fun i => if i = 1 then 7 else 0) 3 0 = -1) :=
  batchGetNextError_first_error (fun i => if i = 1 then 7 else 0) 3 0 (by decide)
